import Mathlib

/-!
Verification of the sourcefinder image-analysis engine
(`tkp/sourcefinder/image.py`) against its natural-language specification.

The Python code is shallowly embedded: float values are modelled as exact
rationals (every runtime float value is a rational) except where the code
applies transcendental functions (`arccos`, `sin`, `exp`, `log`, `sqrt`,
`pi`), which are modelled over the reals.  Masked numpy arrays are
modelled as a value function together with a Boolean mask function.
External library calls (`scipy.ndimage.label`, the Gaussian fitter,
`wcs.s2p`) are taken as parameters of the embedded functions.
-/

namespace TKP

/-! ## Tile estimator (`ImageData.__grids`, image.py lines 362-424)

Each background tile is sigma-clipped by `stats.sigma_clip` (an external
module of the package, not embedded here); the clipped sample, the
standard deviation `sigma` of the clipped sample and its `median` are fed
to the recording logic below, which is the embedding of the loop body at
lines 392-414. -/

/-- numpy.mean of a flat sample. -/
def listMean (xs : List ℚ) : ℚ := xs.sum / xs.length

/-- numpy population variance (`numpy.std` squared) of a flat sample. -/
def listVar (xs : List ℚ) : ℚ :=
  ((xs.map (fun x => (x - listMean xs) ^ 2)).sum) / xs.length

/-- the guard `len(chunk) == 0 or not chunk.any()` at line 394: the tile
is recorded as masked (`False` appended to both grid rows) when the
clipped sample is empty or contains no nonzero value. -/
def tileGuard (chunk : List ℚ) : Bool :=
  decide (chunk.length = 0) || ! chunk.any (fun x => x != 0)

/-- entry appended to the RMS grid row for one tile (`rmsrow.append`,
lines 389/395/399): `none` models appending `False` (a masked entry). -/
def tileRms (chunk : List ℚ) (sigma : ℚ) : Option ℚ :=
  if tileGuard chunk then none else some sigma

/-- entry appended to the background grid row for one tile
(`bgrow.append`, lines 390/396/407-414): the Pearson-skewness branch. -/
def tileBg (chunk : List ℚ) (sigma median : ℚ) : Option ℚ :=
  if tileGuard chunk then none
  else if 3 / 10 ≤ |listMean chunk - median| / sigma then some median
  else some (5 / 2 * median - 3 / 2 * listMean chunk)

/-! ## Cached maps and override setters (image.py lines 98-163)

The `Memoize` decorator (from `tkp.utility.memoize`, not under the
embedded sources; modelled from the spec: a memoised property caches its
value and `del` empties the cache) is modelled by `Option` fields, and
the threshold-keyed `self.labels` / `self.clip` dictionaries (lines
56-57, filled at lines 689-699) by association lists. -/

structure CacheState (M L : Type) where
  userBackmap : Option M
  userNoisemap : Option M
  backmapCache : Option M
  rmsmapCache : Option M
  dataBgsubbedCache : Option M
  labels : List (ℚ × L)
  clip : List (ℚ × L)

/-- `_set_backmap` (lines 112-115): store the user override, then
`del(self.backmap)` and `del(self.data_bgsubbed)`. -/
def setBackmap {M L : Type} (s : CacheState M L) (bgmap : M) : CacheState M L :=
  { s with userBackmap := some bgmap, backmapCache := none, dataBgsubbedCache := none }

/-- `_set_rm` (lines 127-129): store the user override, then
`del(self.rmsmap)` only. -/
def setRm {M L : Type} (s : CacheState M L) (noisemap : M) : CacheState M L :=
  { s with userNoisemap := some noisemap, rmsmapCache := none }

/-! ## Override validation in `extract` / `fd_extract`
(image.py lines 538-552 and 607-620; both methods run the same checks) -/

/-- the Python exception kinds raised by the embedded code paths. -/
inductive PyExc where
  | indexError : PyExc
  | valueError : PyExc
deriving DecidableEq

/-- a user-supplied numpy array: a shape and its flat values. -/
structure NMap where
  shape : ℕ × ℕ
  vals : List ℚ

/-- `noisemap.min()`. -/
def nmapMin (nm : NMap) : ℚ := nm.vals.min?.getD 0

/-- the background-map block (lines 538-543 / 607-612): raise
`IndexError` on a shape mismatch, otherwise assign `self.backmap`. -/
def installBg {L : Type} (mapShape : ℕ × ℕ) (s : CacheState NMap L)
    (bgmap : Option NMap) : CacheState NMap L × Option PyExc :=
  match bgmap with
  | none => (s, none)
  | some bg =>
    if bg.shape ≠ mapShape then (s, some PyExc.indexError)
    else (setBackmap s bg, none)

/-- the noise-map block (lines 545-552 / 613-620): raise `IndexError` on
a shape mismatch, `ValueError` on a negative value, otherwise assign
`self.rmsmap`. -/
def installNoise {L : Type} (mapShape : ℕ × ℕ) (s : CacheState NMap L)
    (noisemap : Option NMap) : CacheState NMap L × Option PyExc :=
  match noisemap with
  | none => (s, none)
  | some nm =>
    if nm.shape ≠ mapShape then (s, some PyExc.indexError)
    else if nmapMin nm < 0 then (s, some PyExc.valueError)
    else (setRm s nm, none)

/-- the override-validation prefix shared by `extract` and `fd_extract`:
the background block runs first; an exception there propagates before
the noise block runs.  `mapShape` is the shape of the derived
`self.backmap` / `self.rmsmap`, which equals the image shape. -/
def installOverrides {L : Type} (mapShape : ℕ × ℕ) (s : CacheState NMap L)
    (bgmap noisemap : Option NMap) : CacheState NMap L × Option PyExc :=
  match installBg mapShape s bgmap with
  | (s1, some e) => (s1, some e)
  | (s1, none) => installNoise mapShape s1 noisemap

/-! ## `fit_to_point` / `fit_fixed_positions` (image.py lines 664-805) -/

/-- `fit_to_point` (lines 664-760), up to the threshold/label check.
`rmsMaskedAtXY` is the masked-background test at lines 675-682 (returns
`None`); with a non-`None` threshold, `labels[x, y] == 0` raises
`ValueError` (lines 702-704).  The remainder of the routine (masking the
chunk, the `IndexError` for an empty fit region, and the scipy Gaussian
fit) is abstracted as `thresholdedRest` / `unthresholdedRest`. -/
def fitToPoint {D : Type} (rmsMaskedAtXY : Bool) (threshold : Option ℚ)
    (labelAtXY : ℕ) (thresholdedRest unthresholdedRest : Except PyExc (Option D)) :
    Except PyExc (Option D) :=
  if rmsMaskedAtXY then Except.ok none
  else
    match threshold with
    | some _ =>
      if labelAtXY = 0 then Except.error PyExc.valueError else thresholdedRest
    | none => unthresholdedRest

/-- `fit_fixed_positions` (lines 762-805).  `s2p` models the
`wcs.s2p` conversion, with `none` for the logged-and-skipped
`RuntimeError` codes 8/9; `ftp` is the `fit_to_point` call for the
converted pixel position; `errInf` is the infinite-positional-error test
at lines 795-798 (logged, detection not appended).  Only `IndexError` is
caught per source (lines 800-803). -/
def fitFixedPositions {S D : Type} (sources : List S) (s2p : S → Option (ℤ × ℤ))
    (ftp : ℤ × ℤ → Except PyExc (Option D)) (errInf : D → Bool) :
    Except PyExc (List D) :=
  match sources with
  | [] => Except.ok []
  | src :: rest =>
    match s2p src with
    | none => fitFixedPositions rest s2p ftp errInf
    | some xy =>
      match ftp xy with
      | Except.ok none => fitFixedPositions rest s2p ftp errInf
      | Except.ok (some d) =>
        if errInf d then fitFixedPositions rest s2p ftp errInf
        else (fitFixedPositions rest s2p ftp errInf).map (fun ds => d :: ds)
      | Except.error PyExc.indexError => fitFixedPositions rest s2p ftp errInf
      | Except.error e => Except.error e

/-! ## Island labelling (`ImageData.label_islands`, image.py lines 807-886)

A 2-D image of shape `n × m` is a value function `ℕ → ℕ → ℚ` with a
Boolean mask function, read at the pixel positions of `gridPixels n m`.
The connected-component labelling itself is performed by the external
`scipy.ndimage.label`; its output (`labelled`, `numLabels`) is a
parameter of the embedding. -/

/-- the pixel positions of an `n × m` image, in C scan order. -/
def gridPixels (n m : ℕ) : List (ℕ × ℕ) :=
  (List.range n).flatMap (fun i => (List.range m).map (fun j => (i, j)))

/-- numpy.median of a flat array: middle element of the ascending sort,
or the average of the two middle elements for even length.  Note that
line 846 applies `numpy.median` (not `numpy.ma.median`) to the masked
RMS map, so the median is taken over the raw values, mask ignored; this
embedding does the same. -/
def npMedian (xs : List ℚ) : ℚ :=
  if xs.length % 2 = 1 then (List.insertionSort (· ≤ ·) xs).getD (xs.length / 2) 0
  else ((List.insertionSort (· ≤ ·) xs).getD (xs.length / 2 - 1) 0 +
    (List.insertionSort (· ≤ ·) xs).getD (xs.length / 2) 0) / 2

/-- `clipped_data` (lines 843-848): 1 where the background-subtracted
value exceeds the analysis-threshold map and the RMS is at least
`RMS_FILTER = 0.001` times the median RMS, 0 elsewhere; masked positions
(of either the background-subtracted data or the RMS map, whose mask the
analysis-threshold map inherits) are filled with 0. -/
def clippedData (n m : ℕ) (bg : ℕ → ℕ → ℚ) (bgmask : ℕ → ℕ → Bool)
    (rms : ℕ → ℕ → ℚ) (rmsmask : ℕ → ℕ → Bool) (anl : ℕ → ℕ → ℚ)
    (p : ℕ × ℕ) : ℕ :=
  if bgmask p.1 p.2 || rmsmask p.1 p.2 then 0
  else if anl p.1 p.2 < bg p.1 p.2 ∧
      1 / 1000 * npMedian ((gridPixels n m).map (fun q => rms q.1 q.2)) ≤ rms p.1 p.2
    then 1 else 0

/-- `above_det_thr` (lines 860-862): the background-subtracted data minus
the detection-threshold map, masked positions filled with −1. -/
def aboveDetMap (bg : ℕ → ℕ → ℚ) (bgmask rmsmask : ℕ → ℕ → Bool)
    (det : ℕ → ℕ → ℚ) (p : ℕ × ℕ) : ℚ :=
  if bgmask p.1 p.2 || rmsmask p.1 p.2 then -1 else bg p.1 p.2 - det p.1 p.2

/-- `ndimage.maximum(above_det_thr, labelled_data, label)` (lines
864-866): the maximum of `above` over the pixels carrying `lab`. -/
def islandMax (n m : ℕ) (labelled : ℕ × ℕ → ℕ) (above : ℕ × ℕ → ℚ)
    (lab : ℕ) : Option ℚ :=
  (((gridPixels n m).filter (fun p => labelled p = lab)).map above).max?

/-- `labels_above_det_thr` (lines 875-880): the labels `1..numLabels`
whose island maximum is not `< 0`.  (A label with no pixels cannot occur
for a labelling produced by `ndimage.label`; such a label is dropped.) -/
def labelsAboveDet (n m : ℕ) (labelled : ℕ × ℕ → ℕ) (above : ℕ × ℕ → ℚ)
    (numLabels : ℕ) : List ℕ :=
  (List.range' 1 numLabels).filter (fun lab =>
    match islandMax n m labelled above lab with
    | none => false
    | some q => ! decide (q < 0))

/-- `label_islands` (lines 807-886): if the RMS map has no unmasked
pixel, return no labels and an all-zero label map (lines 823-826);
otherwise keep the labels whose island maximum is not below the detection
threshold and zero every other label in the returned map (lines 851-886).
When `numLabels = 0` the code returns the (all-zero) labelled array with
no surviving labels. -/
def labelIslands (n m : ℕ) (bg : ℕ → ℕ → ℚ) (bgmask : ℕ → ℕ → Bool)
    (rms : ℕ → ℕ → ℚ) (rmsmask : ℕ → ℕ → Bool) (det anl : ℕ → ℕ → ℚ)
    (labelled : ℕ × ℕ → ℕ) (numLabels : ℕ) : List ℕ × (ℕ × ℕ → ℕ) :=
  if (gridPixels n m).all (fun p => rmsmask p.1 p.2) then ([], fun _ => 0)
  else if numLabels = 0 then ([], labelled)
  else
    let keep := labelsAboveDet n m labelled
      (aboveDetMap bg bgmask rmsmask det) numLabels
    (keep, fun p => if labelled p ∈ keep then labelled p else 0)

/-! ## Detection filtering in `_pyse` (image.py lines 889-1026) -/

/-- a fitted detection, with the fields `_pyse` filters on: the
positional errors (`⊤` models `float('inf')`; errors are nonnegative, so
`WithTop ℚ` is faithful) and the four semi-axis endpoints in pixel
coordinates. -/
structure Det where
  raErr : WithTop ℚ
  decErr : WithTop ℚ
  startSmajX : ℚ
  startSmajY : ℚ
  startSminX : ℚ
  startSminY : ℚ
  endSmajX : ℚ
  endSmajY : ℚ
  endSminX : ℚ
  endSminY : ℚ
deriving DecidableEq

/-- Python indexing of an axis of length `len`: indices in `[0, len)`
are used directly, indices in `[-len, 0)` wrap around to `len + i`, and
anything else raises `IndexError` (`none`).  (numpy of the code's era
truncates the float index to an integer first; the embedding receives
the already-truncated integer.) -/
def pyIndex (len : ℕ) (i : ℤ) : Option ℕ :=
  if 0 ≤ i ∧ i < (len : ℤ) then some i.toNat
  else if -(len : ℤ) ≤ i ∧ i < 0 then some (i + len).toNat
  else none

/-- `check_point` (lines 1002-1014): each floor/ceil combination of the
point must index an unmasked entry of `data.mask`; an `IndexError` means
the point is rejected. -/
def checkPoint (n m : ℕ) (mask : ℕ → ℕ → Bool) (x y : ℚ) : Bool :=
  [(⌊x⌋, ⌊y⌋), (⌊x⌋, ⌈y⌉), (⌈x⌉, ⌊y⌋), (⌈x⌉, ⌈y⌉)].all (fun pos =>
    match pyIndex n pos.1, pyIndex m pos.2 with
    | some i, some j => ! mask i j
    | _, _ => false)

/-- `is_usable` (lines 997-1024): all four semi-axis endpoints pass
`check_point`. -/
def isUsable (n m : ℕ) (mask : ℕ → ℕ → Bool) (d : Det) : Bool :=
  [(d.startSmajX, d.startSmajY), (d.startSminX, d.startSminY),
    (d.endSmajX, d.endSmajY), (d.endSminX, d.endSminY)].all (fun pt =>
      checkPoint n m mask pt.1 pt.2)

/-- the filtering stages of `_pyse` on the fitted detections: a
detection with an infinite `ra` or `dec` error is not appended to
`results` (lines 981-987), and `filter(is_usable, results)` keeps only
detections whose semi-axis endpoints check out (line 1026). -/
def pyseFilter (n m : ℕ) (mask : ℕ → ℕ → Bool) (cands : List Det) : List Det :=
  (cands.filter (fun d => ! (decide (d.raErr = ⊤) || decide (d.decErr = ⊤)))).filter
    (isUsable n m mask)

/-- `_pyse` (lines 889-1026) after island labelling: one island is built
per surviving label (lines 925-948) and fitted (lines 968-995); the
fitting and measurement conversion are external (scipy) and abstracted
as `fitOf`, `none` modelling a failed fit; the fitted detections then
pass through `pyseFilter`. -/
def pyseDetections (n m : ℕ) (mask : ℕ → ℕ → Bool)
    (r : List ℕ × (ℕ × ℕ → ℕ)) (fitOf : ℕ → Option Det) : List Det :=
  pyseFilter n m mask (r.1.filterMap fitOf)

/-! ## Reliable window (`ImageData.reliable_window`, image.py lines 215-291) -/

/-- `conv_factor = 0.5 * sqrt(2) * sin(arccos(1 / (1 + max_degradation)))`
(lines 267-268). -/
noncomputable def convFactor (md : ℝ) : ℝ :=
  0.5 * Real.sqrt 2 * Real.sin (Real.arccos (1 / (1 + md)))

/-- `delta_ra_pix = int(conv_factor / raincr_rad)` with
`raincr_rad = radians(fabs(cdelt))` (lines 269-273); `int()` truncates,
which is the floor for this nonnegative quotient. -/
noncomputable def deltaPix (md cdeltDeg : ℝ) : ℤ :=
  ⌊convFactor md / (|cdeltDeg| * Real.pi / 180)⌋

/-- `numpy.where(limits > 0, limits, 0)` applied to one slice limit
(line 281). -/
def sliceLimit (l : ℤ) : ℤ := max l 0

open Classical in
/-- `reliable_window` (lines 261-291): the returned mask starts as ones
and the slice `[limits[0]:limits[1], limits[2]:limits[3]]` is zeroed for
a SIN projection (`true` = masked).  For a non-SIN projection with
nonzero `max_degradation`, and likewise for `max_degradation = 0`, the
whole mask is set to zero.  `crpix` is taken integral. -/
noncomputable def reliableWindowMask (isSin : Bool) (md cdelt1 cdelt2 : ℝ)
    (crpix1 crpix2 : ℤ) (i j : ℕ) : Bool :=
  if md ≠ 0 ∧ isSin = true then
    ! decide (sliceLimit (crpix1 - deltaPix md cdelt1) ≤ (i : ℤ) ∧
      (i : ℤ) < sliceLimit (crpix1 - 1 + deltaPix md cdelt1) ∧
      sliceLimit (crpix2 - deltaPix md cdelt2) ≤ (j : ℤ) ∧
      (j : ℤ) < sliceLimit (crpix2 - 1 + deltaPix md cdelt2))
  else false

/-- Modelled from the claim's words: the axis-aligned interval centred
on `crpix` with half-width `delta` (one axis of the rectangle the claim
says is left unmasked, before clamping to the image bounds). -/
def claimRetainedIvl (crpix delta : ℤ) (i : ℕ) : Prop :=
  crpix - delta ≤ (i : ℤ) ∧ (i : ℤ) ≤ crpix + delta

/-! ## FDR normalization and threshold selection
(`ImageData.fd_extract`, image.py lines 583-644) -/

/-- Python 2 `round` (half away from zero), on the nonnegative arguments
it receives here. -/
noncomputable def pythonRound (x : ℝ) : ℤ := ⌊x + 1 / 2⌋

/-- `C_n = (1.0 / numpy.arange(round(0.25 * pi * corlengthlong *
corlengthshort + 1))[1:]).sum()` (lines 599-601): the reciprocals of
`1, …, round(0.25·π·λl·λs + 1) − 1`.  The correlation lengths are
computed from the beam by `utils.calculate_correlation_lengths` (an
external module of the package) and enter as parameters. -/
noncomputable def fdCn (corlengthlong corlengthshort : ℝ) : ℝ :=
  ∑ k ∈ Finset.Icc 1
    (pythonRound (0.25 * Real.pi * corlengthlong * corlengthshort + 1) - 1).toNat,
    (1 : ℝ) / k

/-- Modelled from the claim's words: `C_N = Σ_{k=1..K} 1/k` with exactly
`K = round(0.25·π·λ_long·λ_short) + 1` terms. -/
noncomputable def fdCnClaim (corlengthlong corlengthshort : ℝ) : ℝ :=
  ∑ k ∈ Finset.Icc 1
    (pythonRound (0.25 * Real.pi * corlengthlong * corlengthshort) + 1).toNat,
    (1 : ℝ) / k

/-- one entry of `numpy.exp(-0.5 * normalized_data**2) / sqrt(2*pi)`
(lines 624-625). -/
noncomputable def fdProb (z : ℝ) : ℝ :=
  Real.exp (-0.5 * z ^ 2) / Real.sqrt (2 * Real.pi)

/-- `prob = numpy.sort(...)` (line 625): the ascending sort of the
per-pixel probabilities of the standardized image values `zs`. -/
noncomputable def fdProbs (zs : List ℝ) : List ℝ :=
  List.insertionSort (· ≤ ·) (zs.map fdProb)

open Classical in
/-- the index set `numpy.where(prob - compare < 0.)[0]` (line 632), with
`compare = (alpha / C_n) * numpy.arange(lengthprob + 1)[1:] / lengthprob`
(line 627). -/
noncomputable def fdIndexSet (p : List ℝ) (alpha Cn : ℝ) : Finset ℕ :=
  (Finset.range p.length).filter
    (fun i => p.getD i 0 - alpha / Cn * ((i : ℝ) + 1) / (p.length : ℝ) < 0)

/-- the FDR threshold selection (lines 631-637): `index` is the `.max()`
of the index set; an empty set raises `ValueError`, which is caught and
makes `fd_extract` return an empty `ExtractionResults` (modelled as
`none`); otherwise the per-sigma threshold is
`sqrt(-2.0 * log(sqrt(2*pi) * prob[index]))`. -/
noncomputable def fdThresholdOpt (p : List ℝ) (alpha Cn : ℝ) : Option ℝ :=
  if h : (fdIndexSet p alpha Cn).Nonempty then
    some (Real.sqrt (-2 * Real.log (Real.sqrt (2 * Real.pi) *
      p.getD ((fdIndexSet p alpha Cn).max' h) 0)))
  else none

end TKP

namespace TKP

/-! ## Helper lemmas -/

lemma foldl_min_le_init (xs : List ℚ) (a : ℚ) : xs.foldl min a ≤ a := by
  induction xs generalizing a with
  | nil => simp
  | cons x xs ih => exact le_trans (ih (min a x)) (min_le_left a x)

lemma foldl_min_le_mem (xs : List ℚ) (a v : ℚ) (hv : v ∈ xs) : xs.foldl min a ≤ v := by
  induction xs generalizing a with
  | nil => simp at hv
  | cons x xs ih =>
    rcases List.mem_cons.mp hv with h | h
    · subst h
      exact le_trans (foldl_min_le_init xs (min a v)) (min_le_right a v)
    · exact ih (min a x) h

lemma nmapMin_lt_of_neg_mem (nm : NMap) (v : ℚ) (hv : v ∈ nm.vals) (h : v < 0) :
    nmapMin nm < 0 := by
  unfold nmapMin
  cases hx : nm.vals with
  | nil => rw [hx] at hv; simp at hv
  | cons x xs =>
    rw [hx] at hv
    rw [List.min?_cons']
    simp only [Option.getD_some]
    rcases List.mem_cons.mp hv with h' | h'
    · subst h'
      exact lt_of_le_of_lt (foldl_min_le_init xs v) h
    · exact lt_of_le_of_lt (foldl_min_le_mem xs x v h') h

lemma listVar_of_all_zero (chunk : List ℚ) (h : ∀ x ∈ chunk, x = 0) :
    listVar chunk = 0 := by
  have hsum : chunk.sum = 0 := List.sum_eq_zero h
  have hmean : listMean chunk = 0 := by
    unfold listMean; rw [hsum]; simp
  unfold listVar
  rw [hmean]
  have : (chunk.map fun x => (x - 0) ^ 2).sum = 0 := by
    apply List.sum_eq_zero
    intro y hy
    rcases List.mem_map.mp hy with ⟨x, hx, rfl⟩
    rw [h x hx]; ring
  rw [this]; simp

/-! ## Claim theorems -/

/-- C1 counterexample: a 1×1 image whose single pixel has
background-subtracted value 5, analysis threshold 3 and detection
threshold 5.  The clipped image is 1 at the pixel, so the single
connected component (label 1, as `ndimage.label` of `[[1]]`) has
`max(bg_subtracted − detection_map) = 0`.  The claim says a label with
maximum ≤ 0 is discarded, but `label_islands` retains it: label 1 stays
in the returned list and in the returned label map. -/
theorem C1_counterexample :
    aboveDetMap (fun _ _ => 5) (fun _ _ => false) (fun _ _ => false)
      (fun _ _ => 5) (0, 0) ≤ 0 ∧
    clippedData 1 1 (fun _ _ => 5) (fun _ _ => false) (fun _ _ => 1)
      (fun _ _ => false) (fun _ _ => 3) (0, 0) = 1 ∧
    (labelIslands 1 1 (fun _ _ => 5) (fun _ _ => false) (fun _ _ => 1)
      (fun _ _ => false) (fun _ _ => 5) (fun _ _ => 3)
      (fun p => if p = (0, 0) then 1 else 0) 1).1 = [1] ∧
    (labelIslands 1 1 (fun _ _ => 5) (fun _ _ => false) (fun _ _ => 1)
      (fun _ _ => false) (fun _ _ => 5) (fun _ _ => 3)
      (fun p => if p = (0, 0) then 1 else 0) 1).2 (0, 0) = 1 := by
  have hg : gridPixels 1 1 = [(0, 0)] := rfl
  have hmed : npMedian [(1 : ℚ)] = 1 := rfl
  refine ⟨by norm_num [aboveDetMap], ?_, ?_, ?_⟩
  · simp only [clippedData, hg, List.map_cons, List.map_nil, hmed]
    norm_num
  · simp only [labelIslands, labelsAboveDet, islandMax, hg]
    norm_num [List.max?, List.range', aboveDetMap]
  · simp only [labelIslands, labelsAboveDet, islandMax, hg]
    norm_num [List.max?, List.range', aboveDetMap]

/-- C1 (amended): in `label_islands`, a connected-component label `lab`
with island maximum `q` of `(bg_subtracted − detection_map)` is retained
(present in the returned label list and kept in the returned label map)
if and only if `q ≥ 0`; it is discarded exactly when `q < 0`, not when
`q ≤ 0` as claimed. -/
theorem C1_island_filter (n m : ℕ) (bg : ℕ → ℕ → ℚ) (bgmask : ℕ → ℕ → Bool)
    (rms : ℕ → ℕ → ℚ) (rmsmask : ℕ → ℕ → Bool) (det anl : ℕ → ℕ → ℚ)
    (labelled : ℕ × ℕ → ℕ) (numLabels : ℕ)
    (hmask : (gridPixels n m).all (fun p => rmsmask p.1 p.2) = false)
    (lab : ℕ) (q : ℚ) (h1 : 1 ≤ lab) (h2 : lab ≤ numLabels)
    (hq : islandMax n m labelled (aboveDetMap bg bgmask rmsmask det) lab = some q) :
    ((lab ∈ (labelIslands n m bg bgmask rms rmsmask det anl labelled numLabels).1)
      ↔ 0 ≤ q) ∧
    (∀ p, labelled p = lab →
      (labelIslands n m bg bgmask rms rmsmask det anl labelled numLabels).2 p =
        if 0 ≤ q then lab else 0) := by
  have hN : numLabels ≠ 0 := by omega
  have hmem : (lab ∈ (labelIslands n m bg bgmask rms rmsmask det anl labelled
      numLabels).1) ↔ 0 ≤ q := by
    simp only [labelIslands, hmask, Bool.false_eq_true, if_false, hN]
    simp only [labelsAboveDet, List.mem_filter, hq, List.mem_range'_1]
    constructor
    · rintro ⟨-, hpred⟩
      simp only [Bool.not_eq_true'] at hpred
      exact not_lt.mp (of_decide_eq_false hpred)
    · intro h0
      refine ⟨⟨h1, by omega⟩, ?_⟩
      simp [decide_eq_false (not_lt.mpr h0)]
  refine ⟨hmem, ?_⟩
  intro p hp
  simp only [labelIslands, hmask, Bool.false_eq_true, if_false, hN] at hmem ⊢
  simp only [hp]
  by_cases h0 : 0 ≤ q
  · rw [if_pos (hmem.mpr h0), if_pos h0]
  · rw [if_neg (fun hin => h0 (hmem.mp hin)), if_neg h0]

/-- C1 witness: a 1×3 image with background-subtracted row `[5, 0, 4]`,
analysis threshold 3 and detection-threshold row `[4, 99, 99]`.  The
clipped image is `[1, 0, 1]`, giving two components; label 1 has island
maximum `1 ≥ 0` and is retained, label 2 has island maximum `−95 < 0`
and is discarded (zeroed in the returned map). -/
theorem C1_island_filter_witness :
    clippedData 1 3 (fun _ j => if j = 0 then 5 else if j = 2 then 4 else 0)
      (fun _ _ => false) (fun _ _ => 1) (fun _ _ => false)
      (fun _ _ => 3) (0, 0) = 1 ∧
    clippedData 1 3 (fun _ j => if j = 0 then 5 else if j = 2 then 4 else 0)
      (fun _ _ => false) (fun _ _ => 1) (fun _ _ => false)
      (fun _ _ => 3) (0, 1) = 0 ∧
    clippedData 1 3 (fun _ j => if j = 0 then 5 else if j = 2 then 4 else 0)
      (fun _ _ => false) (fun _ _ => 1) (fun _ _ => false)
      (fun _ _ => 3) (0, 2) = 1 ∧
    (1 ∈ (labelIslands 1 3 (fun _ j => if j = 0 then 5 else if j = 2 then 4 else 0)
      (fun _ _ => false) (fun _ _ => 1) (fun _ _ => false)
      (fun _ j => if j = 0 then 4 else 99) (fun _ _ => 3)
      (fun p => if p = (0, 0) then 1 else if p = (0, 2) then 2 else 0) 2).1) ∧
    (2 ∉ (labelIslands 1 3 (fun _ j => if j = 0 then 5 else if j = 2 then 4 else 0)
      (fun _ _ => false) (fun _ _ => 1) (fun _ _ => false)
      (fun _ j => if j = 0 then 4 else 99) (fun _ _ => 3)
      (fun p => if p = (0, 0) then 1 else if p = (0, 2) then 2 else 0) 2).1) ∧
    (labelIslands 1 3 (fun _ j => if j = 0 then 5 else if j = 2 then 4 else 0)
      (fun _ _ => false) (fun _ _ => 1) (fun _ _ => false)
      (fun _ j => if j = 0 then 4 else 99) (fun _ _ => 3)
      (fun p => if p = (0, 0) then 1 else if p = (0, 2) then 2 else 0) 2).2 (0, 2)
      = 0 := by
  have hg : gridPixels 1 3 = [(0, 0), (0, 1), (0, 2)] := rfl
  have hmask : (gridPixels 1 3).all
      (fun p => (fun _ _ : ℕ => false) p.1 p.2) = false := by decide
  have hq1 : islandMax 1 3
      (fun p => if p = (0, 0) then 1 else if p = (0, 2) then 2 else 0)
      (aboveDetMap (fun _ j => if j = 0 then 5 else if j = 2 then 4 else 0)
        (fun _ _ => false) (fun _ _ => false)
        (fun _ j => if j = 0 then 4 else 99)) 1 = some 1 := by
    simp only [islandMax, hg]
    norm_num [List.max?, aboveDetMap]
  have hq2 : islandMax 1 3
      (fun p => if p = (0, 0) then 1 else if p = (0, 2) then 2 else 0)
      (aboveDetMap (fun _ j => if j = 0 then 5 else if j = 2 then 4 else 0)
        (fun _ _ => false) (fun _ _ => false)
        (fun _ j => if j = 0 then 4 else 99)) 2 = some (-95) := by
    simp only [islandMax, hg]
    norm_num [List.max?, aboveDetMap]
  have h1 := C1_island_filter 1 3 _ _ (fun _ _ => 1) _ _ (fun _ _ => 3) _ 2
    hmask 1 1 le_rfl (by norm_num) hq1
  have h2 := C1_island_filter 1 3 _ _ (fun _ _ => 1) _ _ (fun _ _ => 3) _ 2
    hmask 2 (-95) (by norm_num) le_rfl hq2
  have hmed : npMedian [(1 : ℚ), 1, 1] = 1 := rfl
  refine ⟨?_, ?_, ?_, ?_, ?_, ?_⟩
  · simp only [clippedData, hg, List.map_cons, List.map_nil, hmed]
    norm_num
  · simp only [clippedData, hg, List.map_cons, List.map_nil, hmed]
    norm_num
  · simp only [clippedData, hg, List.map_cons, List.map_nil, hmed]
    norm_num
  · exact h1.1.mpr (by norm_num)
  · intro hmem
    have := h2.1.mp hmem
    norm_num at this
  · have := h2.2 (0, 2) (by norm_num)
    rw [this]
    norm_num

/-- C9: when the RMS map is entirely masked, `label_islands` returns an
empty label list and an all-zero label map without raising, so the whole
extraction produces zero detections. -/
theorem C9_allmasked (n m : ℕ) (bg : ℕ → ℕ → ℚ) (bgmask : ℕ → ℕ → Bool)
    (rms : ℕ → ℕ → ℚ) (rmsmask : ℕ → ℕ → Bool) (det anl : ℕ → ℕ → ℚ)
    (labelled : ℕ × ℕ → ℕ) (numLabels : ℕ)
    (hmask : (gridPixels n m).all (fun p => rmsmask p.1 p.2) = true) :
    labelIslands n m bg bgmask rms rmsmask det anl labelled numLabels =
      ([], fun _ => 0) ∧
    (∀ (mask : ℕ → ℕ → Bool) (fitOf : ℕ → Option Det),
      pyseDetections n m mask
        (labelIslands n m bg bgmask rms rmsmask det anl labelled numLabels)
        fitOf = []) := by
  have h : labelIslands n m bg bgmask rms rmsmask det anl labelled numLabels =
      ([], fun _ => 0) := by
    simp [labelIslands, hmask]
  exact ⟨h, fun mask fitOf => by simp [h, pyseDetections, pyseFilter]⟩

/-- C9 witness: a 1×1 image with its RMS map fully masked yields no
labels, an all-zero label map and an empty detection list. -/
theorem C9_allmasked_witness :
    labelIslands 1 1 (fun _ _ => 0) (fun _ _ => false) (fun _ _ => 0)
      (fun _ _ => true) (fun _ _ => 0) (fun _ _ => 0) (fun _ => 0) 0 =
      ([], fun _ => 0) ∧
    pyseDetections 1 1 (fun _ _ => false)
      (labelIslands 1 1 (fun _ _ => 0) (fun _ _ => false) (fun _ _ => 0)
        (fun _ _ => true) (fun _ _ => 0) (fun _ _ => 0) (fun _ => 0) 0)
      (fun _ => none) = [] := by
  have h := C9_allmasked 1 1 (fun _ _ => 0) (fun _ _ => false) (fun _ _ => 0)
    (fun _ _ => true) (fun _ _ => 0) (fun _ _ => 0) (fun _ => 0) 0 (by decide)
  exact ⟨h.1, h.2 (fun _ _ => false) (fun _ => none)⟩

/-- C6: the code evaluated at a failing input.  A detection with finite
positional errors whose semi-major-axis end point is `(−0.5, 1)` lies
outside the 4×4 image (negative x), yet `_pyse`'s filter retains it:
`numpy.floor(−0.5) = −1` is a valid Python index (it wraps to row 3,
which is unmasked), so `check_point` never sees the `IndexError` its
author relied on to reject off-image points. -/
theorem C6_endpoint_wrap :
    pyseFilter 4 4 (fun _ _ => false)
      [{ raErr := ((0 : ℚ) : WithTop ℚ), decErr := ((0 : ℚ) : WithTop ℚ),
         startSmajX := 1, startSmajY := 1, startSminX := 2, startSminY := 2,
         endSmajX := -1/2, endSmajY := 1, endSminX := 1, endSminY := 2 }] =
      [{ raErr := ((0 : ℚ) : WithTop ℚ), decErr := ((0 : ℚ) : WithTop ℚ),
         startSmajX := 1, startSmajY := 1, startSminX := 2, startSminY := 2,
         endSmajX := -1/2, endSmajY := 1, endSminX := 1, endSminY := 2 }] ∧
    (-1/2 : ℚ) < 0 := by
  constructor
  · have hf : ⌊(-1/2 : ℚ)⌋ = -1 := by norm_num
    have hc : ⌈(-1/2 : ℚ)⌉ = 0 := by norm_num
    have hf1 : ⌊(1 : ℚ)⌋ = 1 := by norm_num
    have hc1 : ⌈(1 : ℚ)⌉ = 1 := by norm_num
    have hf2 : ⌊(2 : ℚ)⌋ = 2 := by norm_num
    have hc2 : ⌈(2 : ℚ)⌉ = 2 := by norm_num
    simp [pyseFilter, isUsable, checkPoint, pyIndex, hf, hc, hf1, hc1, hf2, hc2]
  · norm_num

/-- C2: for every tile whose sigma-clipped sample is non-empty (and whose
sigma, the standard deviation of that sample, is positive, as the claim's
division by sigma presupposes), the recorded background-grid entry is the
median when `|mean − median| / sigma ≥ 0.3` and `2.5·median − 1.5·mean`
otherwise, and the RMS-grid entry is sigma. -/
theorem C2_tile_skewness (chunk : List ℚ) (sigma median : ℚ)
    (hne : chunk ≠ []) (hs : 0 < sigma) (hvar : sigma ^ 2 = listVar chunk) :
    tileRms chunk sigma = some sigma ∧
    (3 / 10 ≤ |listMean chunk - median| / sigma →
      tileBg chunk sigma median = some median) ∧
    (|listMean chunk - median| / sigma < 3 / 10 →
      tileBg chunk sigma median = some (5 / 2 * median - 3 / 2 * listMean chunk)) := by
  have hguard : tileGuard chunk = false := by
    unfold tileGuard
    have hlen : chunk.length ≠ 0 := fun h => hne (List.length_eq_zero.mp h)
    have hany : chunk.any (fun x => x != 0) = true := by
      by_contra hcon
      have hall : ∀ x ∈ chunk, x = 0 := by
        intro x hx
        by_contra hx0
        exact hcon (List.any_eq_true.mpr ⟨x, hx, by simpa using hx0⟩)
      have : listVar chunk = 0 := listVar_of_all_zero chunk hall
      rw [this] at hvar
      exact absurd (pow_eq_zero_iff (n := 2) (by norm_num) |>.mp hvar)
        (ne_of_gt hs)
    simp [hlen, hany]
  refine ⟨?_, ?_, ?_⟩
  · unfold tileRms; rw [hguard]; simp
  · intro hskew
    unfold tileBg; rw [hguard]
    simp only [Bool.false_eq_true, if_false]
    rw [if_pos hskew]
  · intro hskew
    unfold tileBg; rw [hguard]
    simp only [Bool.false_eq_true, if_false]
    rw [if_neg (not_le.mpr hskew)]

/-- C2 witness: the clipped sample `[0, 2]` has mean 1, variance 1; with
sigma 1 and median 1 the skewness ratio is 0 < 0.3, so the background
entry is `2.5·1 − 1.5·1 = 1` and the RMS entry is 1. -/
theorem C2_tile_skewness_witness :
    tileRms [0, 2] 1 = some 1 ∧ tileBg [0, 2] 1 1 = some 1 := by
  have h := C2_tile_skewness [0, 2] 1 1 (by simp) (by norm_num)
    (by norm_num [listVar, listMean])
  refine ⟨h.1, ?_⟩
  have hrat : |listMean [0, 2] - 1| / 1 < 3 / 10 := by
    norm_num [listMean]
  rw [h.2.2 hrat]
  norm_num [listMean]

/-- C7 counterexample: with a populated label cache, setting the
background override leaves `labels` (and `clip`) untouched, and setting
the RMS override leaves both `labels` and the cached background-subtracted
image untouched — the claim that either override invalidates the
background-subtracted image and every cached label map is false. -/
theorem C7_counterexample :
    ((setBackmap (⟨none, none, some 1, some 2, some 3, [(3, 4)], [(3, 5)]⟩ :
        CacheState ℕ ℕ) 7).labels = [(3, 4)] ∧
      (setBackmap (⟨none, none, some 1, some 2, some 3, [(3, 4)], [(3, 5)]⟩ :
        CacheState ℕ ℕ) 7).labels ≠ []) ∧
    ((setRm (⟨none, none, some 1, some 2, some 3, [(3, 4)], [(3, 5)]⟩ :
        CacheState ℕ ℕ) 8).labels = [(3, 4)] ∧
      (setRm (⟨none, none, some 1, some 2, some 3, [(3, 4)], [(3, 5)]⟩ :
        CacheState ℕ ℕ) 8).dataBgsubbedCache = some 3) := by
  refine ⟨⟨rfl, ?_⟩, rfl, rfl⟩
  simp [setBackmap]

/-- C7 (amended): setting the background override invalidates the cached
background map and the cached background-subtracted image; setting the
RMS override invalidates only the cached RMS map; neither setter clears
the threshold-keyed `labels` / `clip` caches, and the RMS setter leaves
the background-subtracted cache in place. -/
theorem C7_setter_invalidation {M L : Type} (s : CacheState M L) (bgm nm : M) :
    (setBackmap s bgm).userBackmap = some bgm ∧
    (setBackmap s bgm).backmapCache = none ∧
    (setBackmap s bgm).dataBgsubbedCache = none ∧
    (setBackmap s bgm).rmsmapCache = s.rmsmapCache ∧
    (setBackmap s bgm).labels = s.labels ∧
    (setBackmap s bgm).clip = s.clip ∧
    (setRm s nm).userNoisemap = some nm ∧
    (setRm s nm).rmsmapCache = none ∧
    (setRm s nm).backmapCache = s.backmapCache ∧
    (setRm s nm).dataBgsubbedCache = s.dataBgsubbedCache ∧
    (setRm s nm).labels = s.labels ∧
    (setRm s nm).clip = s.clip :=
  ⟨rfl, rfl, rfl, rfl, rfl, rfl, rfl, rfl, rfl, rfl, rfl, rfl⟩

/-- C8: in the shared override-validation prefix of `extract` and
`fd_extract`, a user background map of the wrong shape raises
`IndexError` with the engine state unchanged, and a user noise map of the
wrong shape or containing a negative value raises an exception with the
noise override not installed. -/
theorem C8_override_validation {L : Type} (mapShape : ℕ × ℕ) (s : CacheState NMap L) :
    (∀ (bg : NMap) (nm : Option NMap), bg.shape ≠ mapShape →
      installOverrides mapShape s (some bg) nm = (s, some PyExc.indexError)) ∧
    (∀ (bg : Option NMap) (nm : NMap),
      (nm.shape ≠ mapShape ∨ ∃ v ∈ nm.vals, v < 0) →
      (installOverrides mapShape s bg (some nm)).2 ≠ none ∧
      (installOverrides mapShape s bg (some nm)).1.userNoisemap = s.userNoisemap) := by
  constructor
  · intro bg nm hshape
    simp [installOverrides, installBg, if_pos hshape]
  · intro bg nm hbad
    have hnoise : ∀ s1 : CacheState NMap L, s1.userNoisemap = s.userNoisemap →
        (installNoise mapShape s1 (some nm)).2 ≠ none ∧
        (installNoise mapShape s1 (some nm)).1.userNoisemap = s.userNoisemap := by
      intro s1 hs1
      rcases hbad with hshape | ⟨v, hv, hvneg⟩
      · simp [installNoise, if_pos hshape, hs1]
      · by_cases hsh : nm.shape ≠ mapShape
        · simp [installNoise, if_pos hsh, hs1]
        · simp [installNoise, if_neg hsh,
            if_pos (nmapMin_lt_of_neg_mem nm v hv hvneg), hs1]
    match bg with
    | none =>
      have h := hnoise s rfl
      simpa [installOverrides, installBg] using h
    | some b =>
      by_cases hb : b.shape ≠ mapShape
      · simp [installOverrides, installBg, if_pos hb]
      · have h := hnoise (setBackmap s b) rfl
        simpa [installOverrides, installBg, if_neg hb] using h

/-- C8 witness: against a 2×2 image, a 1×1 noise map raises, and a 2×2
noise map containing −1 raises, in both cases leaving the noise override
uninstalled. -/
theorem C8_override_validation_witness :
    (({ shape := (1, 1), vals := [1] } : NMap).shape ≠ (2, 2) ∧
      (installOverrides (2, 2) (⟨none, none, none, none, none, [], []⟩ :
        CacheState NMap ℕ) none
        (some { shape := (1, 1), vals := [1] })).2 ≠ none) ∧
    ((-1 : ℚ) < 0 ∧
      (installOverrides (2, 2) (⟨none, none, none, none, none, [], []⟩ :
        CacheState NMap ℕ) none
        (some { shape := (2, 2), vals := [-1] })).2 ≠ none) := by
  constructor
  · refine ⟨by decide, ?_⟩
    exact ((C8_override_validation (2, 2) _).2 none { shape := (1, 1), vals := [1] }
      (Or.inl (by decide))).1
  · refine ⟨by norm_num, ?_⟩
    exact ((C8_override_validation (2, 2) _).2 none { shape := (2, 2), vals := [-1] }
      (Or.inr ⟨-1, by simp, by norm_num⟩)).1

/-- C10: with a non-`None` pixel threshold, a requested position whose
pixel has label 0 in the thresholded label map makes `fit_to_point` raise
`ValueError`; `fit_fixed_positions` catches only `IndexError` per source,
so the `ValueError` propagates to the caller (while an `IndexError` for
the same source would merely skip it). -/
theorem C10_valueerror_propagates {S D : Type} :
    (∀ (t : ℚ) (r1 r2 : Except PyExc (Option D)),
      fitToPoint false (some t) 0 r1 r2 = Except.error PyExc.valueError) ∧
    (∀ (src : S) (rest : List S) (s2p : S → Option (ℤ × ℤ))
      (ftp : ℤ × ℤ → Except PyExc (Option D)) (errInf : D → Bool) (xy : ℤ × ℤ),
      s2p src = some xy →
      (ftp xy = Except.error PyExc.valueError →
        fitFixedPositions (src :: rest) s2p ftp errInf =
          Except.error PyExc.valueError) ∧
      (ftp xy = Except.error PyExc.indexError →
        fitFixedPositions (src :: rest) s2p ftp errInf =
          fitFixedPositions rest s2p ftp errInf)) := by
  constructor
  · intro t r1 r2
    rfl
  · intro src rest s2p ftp errInf xy hs2p
    constructor
    · intro hftp
      simp only [fitFixedPositions, hs2p, hftp]
    · intro hftp
      simp only [fitFixedPositions, hs2p, hftp]

lemma sqrt_two_bounds : (1.414 : ℝ) < Real.sqrt 2 ∧ Real.sqrt 2 < 1.4143 := by
  constructor
  · have h : (1.414 : ℝ) = Real.sqrt (1.414 ^ 2) := by
      rw [Real.sqrt_sq (by norm_num)]
    rw [h]
    exact Real.sqrt_lt_sqrt (by norm_num) (by norm_num)
  · have h : (1.4143 : ℝ) = Real.sqrt (1.4143 ^ 2) := by
      rw [Real.sqrt_sq (by norm_num)]
    rw [h]
    exact Real.sqrt_lt_sqrt (by norm_num) (by norm_num)

lemma sqrt_eleven36_bounds :
    (0.5527 : ℝ) < Real.sqrt (11 / 36) ∧ Real.sqrt (11 / 36) < 0.5528 := by
  constructor
  · have h : (0.5527 : ℝ) = Real.sqrt (0.5527 ^ 2) := by
      rw [Real.sqrt_sq (by norm_num)]
    rw [h]
    exact Real.sqrt_lt_sqrt (by norm_num) (by norm_num)
  · have h : (0.5528 : ℝ) = Real.sqrt (0.5528 ^ 2) := by
      rw [Real.sqrt_sq (by norm_num)]
    rw [h]
    exact Real.sqrt_lt_sqrt (by norm_num) (by norm_num)

/-- with `max_degradation = 0.2` and `cdelt = 6` degrees, the pixel
offset computed by `reliable_window` is 3: the conversion factor is
`0.5·√2·sin(arccos(5/6)) = 0.5·√2·√(11/36) ≈ 0.3909` and dividing by
`radians(6) = π/30 ≈ 0.1047` gives ≈ 3.73. -/
lemma deltaPix_fifth_six : deltaPix (1 / 5) 6 = 3 := by
  unfold deltaPix convFactor
  have h56 : (1 : ℝ) / (1 + 1 / 5) = 5 / 6 := by norm_num
  rw [h56, Real.sin_arccos]
  have h1136 : (1 : ℝ) - (5 / 6) ^ 2 = 11 / 36 := by norm_num
  rw [h1136]
  have habs : |(6 : ℝ)| = 6 := by norm_num
  rw [habs]
  have hs2 := sqrt_two_bounds
  have hs11 := sqrt_eleven36_bounds
  have hpil := Real.pi_gt_d4
  have hpiu := Real.pi_lt_d4
  have hpos : (0 : ℝ) < 6 * Real.pi / 180 := by positivity
  have key1 : (0.39 : ℝ) < 0.5 * Real.sqrt 2 * Real.sqrt (11 / 36) := by
    nlinarith [hs2.1, hs11.1,
      mul_pos (sub_pos.mpr hs2.1) (sub_pos.mpr hs11.1)]
  have key2 : 0.5 * Real.sqrt 2 * Real.sqrt (11 / 36) < (0.3910 : ℝ) := by
    nlinarith [hs2.2, hs11.2, hs2.1, hs11.1,
      mul_pos (sub_pos.mpr hs2.2) (sub_pos.mpr hs11.2)]
  rw [Int.floor_eq_iff]
  constructor
  · push_cast
    rw [le_div_iff₀ hpos]
    linarith
  · push_cast
    rw [div_lt_iff₀ hpos]
    linarith

/-- C3 counterexample: a SIN image with `max_degradation = 0.2`,
`cdelt = (6°, 6°)` and `crpix = (5, 5)`, so `Δra = Δdec = 3`.  Pixel
`(7, 5)` lies in the claim's rectangle centred on `crpix` with
half-widths `Δ` (and inside a 12×12 image), yet `reliable_window` masks
it: the unmasked slice is `[5−3 : 5−1+3) = [2 : 7)`, which excludes
row 7. -/
theorem C3_counterexample :
    claimRetainedIvl 5 (deltaPix (1 / 5) 6) 7 ∧
    claimRetainedIvl 5 (deltaPix (1 / 5) 6) 5 ∧
    (7 : ℕ) < 12 ∧ (5 : ℕ) < 12 ∧
    reliableWindowMask true (1 / 5) 6 6 5 5 7 5 = true := by
  rw [claimRetainedIvl, claimRetainedIvl, deltaPix_fifth_six]
  refine ⟨by norm_num, by norm_num, by norm_num, by norm_num, ?_⟩
  rw [reliableWindowMask, if_pos ⟨by norm_num, rfl⟩, deltaPix_fifth_six]
  simp only [sliceLimit]
  rw [decide_eq_false]
  · rfl
  · intro h
    omega

/-- C3 (amended): for a SIN projection with nonzero `max_degradation`,
`reliable_window` leaves unmasked exactly the pixels within the
axis-aligned rectangle centred on `crpix − 1` with half-widths
`Δra − 1` and `Δdec − 1` (lower bounds clamped at 0, and the upper
bounds clamped by the array extent when slicing); for a non-SIN
projection it retains the full image. -/
theorem C3_reliable_window (md cdelt1 cdelt2 : ℝ)
    (crpix1 crpix2 : ℤ) (i j : ℕ) (hmd : md ≠ 0) :
    (reliableWindowMask true md cdelt1 cdelt2 crpix1 crpix2 i j = false ↔
      (|(i : ℤ) - (crpix1 - 1)| ≤ deltaPix md cdelt1 - 1 ∧
        |(j : ℤ) - (crpix2 - 1)| ≤ deltaPix md cdelt2 - 1)) ∧
    reliableWindowMask false md cdelt1 cdelt2 crpix1 crpix2 i j = false := by
  constructor
  · rw [reliableWindowMask, if_pos ⟨hmd, rfl⟩]
    simp only [Bool.not_eq_false', decide_eq_true_eq, sliceLimit, abs_le]
    omega
  · rw [reliableWindowMask, if_neg]
    rintro ⟨-, hfalse⟩
    exact Bool.false_ne_true hfalse

/-- C3 witness: in the configuration of the counterexample, pixel
`(2, 5)` satisfies `|2 − 4| ≤ 2` and `|5 − 4| ≤ 2`, so it is unmasked;
and with a non-SIN projection the same pixel is unmasked as well. -/
theorem C3_reliable_window_witness :
    ((1 : ℝ) / 5 ≠ 0) ∧
    reliableWindowMask true (1 / 5) 6 6 5 5 2 5 = false ∧
    reliableWindowMask false (1 / 5) 6 6 5 5 7 5 = false := by
  have h := C3_reliable_window (1 / 5) 6 6 5 5 2 5 (by norm_num)
  have h2 := C3_reliable_window (1 / 5) 6 6 5 5 7 5 (by norm_num)
  refine ⟨by norm_num, ?_, h2.2⟩
  rw [h.1, deltaPix_fifth_six]
  decide

/-- C4 counterexample: with correlation lengths `λl = λs = 2` the code's
normalization sums `round(π + 1) − 1 = 3` reciprocals,
`1 + 1/2 + 1/3 = 11/6`, while the claimed `K = round(π) + 1 = 4` terms
would give `25/12`. -/
theorem C4_counterexample : fdCn 2 2 ≠ fdCnClaim 2 2 := by
  have hpil := Real.pi_gt_d4
  have hpiu := Real.pi_lt_d4
  have hx : (0.25 : ℝ) * Real.pi * 2 * 2 = Real.pi := by ring
  have hr1 : pythonRound (Real.pi + 1) = 4 := by
    rw [pythonRound, Int.floor_eq_iff]
    constructor
    · push_cast; linarith
    · push_cast; linarith
  have hr2 : pythonRound Real.pi = 3 := by
    rw [pythonRound, Int.floor_eq_iff]
    constructor
    · push_cast; linarith
    · push_cast; linarith
  rw [fdCn, fdCnClaim, hx, hr1, hr2]
  rw [show ((4 : ℤ) - 1).toNat = 3 from rfl, show ((3 : ℤ) + 1).toNat = 4 from rfl]
  have h3 : ∑ k ∈ Finset.Icc (1 : ℕ) 3, (1 : ℝ) / k = 11 / 6 := by
    rw [show Finset.Icc (1 : ℕ) 3 = {1, 2, 3} by decide]
    rw [Finset.sum_insert (by decide), Finset.sum_insert (by decide),
      Finset.sum_singleton]
    norm_num
  have h4 : ∑ k ∈ Finset.Icc (1 : ℕ) 4, (1 : ℝ) / k = 25 / 12 := by
    rw [show Finset.Icc (1 : ℕ) 4 = {1, 2, 3, 4} by decide]
    rw [Finset.sum_insert (by decide), Finset.sum_insert (by decide),
      Finset.sum_insert (by decide), Finset.sum_singleton]
    norm_num
  rw [h3, h4]
  norm_num

/-- C4 (amended): the normalization constant of `fd_extract` is
`C_N = Σ_{k=1..K} 1/k` with `K = round(0.25·π·λ_long·λ_short)` terms
(that is, `round(0.25·π·λl·λs + 1) − 1`, one fewer than the claimed
`round(0.25·π·λl·λs) + 1`). -/
theorem C4_fdCn_terms (corlengthlong corlengthshort : ℝ) :
    fdCn corlengthlong corlengthshort =
      ∑ k ∈ Finset.Icc 1
        (pythonRound (0.25 * Real.pi * corlengthlong * corlengthshort)).toNat,
        (1 : ℝ) / k := by
  rw [fdCn]
  have h : pythonRound (0.25 * Real.pi * corlengthlong * corlengthshort + 1) - 1 =
      pythonRound (0.25 * Real.pi * corlengthlong * corlengthshort) := by
    rw [pythonRound, pythonRound,
      show (0.25 * Real.pi * corlengthlong * corlengthshort + 1 + 1 / 2 : ℝ) =
        (0.25 * Real.pi * corlengthlong * corlengthshort + 1 / 2) + 1 by ring,
      Int.floor_add_one]
    omega
  rw [h]

/-- C5: in `fd_extract`, with `p` the ascending sort of
`exp(−z²/2)/√(2π)` over the standardized pixel values and
`q_i = (alpha/C_n)·i/M`: if no index satisfies `p[i] < q[i]` the result
is `none` (the caught `ValueError`, an empty result set), and otherwise
the threshold is `√(−2·ln(√(2π)·p[i*]))` at the largest such index
`i*`. -/
theorem C5_fdr_selection (zs : List ℝ) (alpha Cn : ℝ) (p : List ℝ)
    (hp : p = fdProbs zs) :
    (fdThresholdOpt p alpha Cn = none ↔
      ∀ i, i < p.length →
        ¬ (p.getD i 0 < alpha / Cn * ((i : ℝ) + 1) / (p.length : ℝ))) ∧
    (∀ i, i < p.length →
      p.getD i 0 < alpha / Cn * ((i : ℝ) + 1) / (p.length : ℝ) →
      (∀ j, j < p.length →
        p.getD j 0 < alpha / Cn * ((j : ℝ) + 1) / (p.length : ℝ) → j ≤ i) →
      fdThresholdOpt p alpha Cn =
        some (Real.sqrt (-2 * Real.log (Real.sqrt (2 * Real.pi) * p.getD i 0)))) := by
  clear hp
  have hmem : ∀ i, i ∈ fdIndexSet p alpha Cn ↔
      i < p.length ∧ p.getD i 0 < alpha / Cn * ((i : ℝ) + 1) / (p.length : ℝ) := by
    intro i
    rw [fdIndexSet, Finset.mem_filter, Finset.mem_range, sub_neg]
  constructor
  · constructor
    · intro hnone i hi hlt
      rw [fdThresholdOpt] at hnone
      split at hnone
      · exact Option.some_ne_none _ hnone
      · rename_i hne
        exact hne ⟨i, (hmem i).mpr ⟨hi, hlt⟩⟩
    · intro hall
      rw [fdThresholdOpt, dif_neg]
      rintro ⟨i, hi⟩
      rcases (hmem i).mp hi with ⟨hlen, hlt⟩
      exact hall i hlen hlt
  · intro i hi hlt hmax
    have hin : i ∈ fdIndexSet p alpha Cn := (hmem i).mpr ⟨hi, hlt⟩
    have hne : (fdIndexSet p alpha Cn).Nonempty := ⟨i, hin⟩
    have hmax' : (fdIndexSet p alpha Cn).max' hne = i := by
      refine le_antisymm (Finset.max'_le _ _ _ ?_) (Finset.le_max' _ _ hin)
      intro j hj
      rcases (hmem j).mp hj with ⟨hjlen, hjlt⟩
      exact hmax j hjlen hjlt
    rw [fdThresholdOpt, dif_pos hne, hmax']

/-- C5 witness: for the single standardized value 0,
`p = [1/√(2π)] ≈ [0.399]` and with `alpha = C_n = 1` the comparison
value is `q_1 = 1`, so index 0 is the largest undercrossing and the
threshold option is `some √(−2·ln(√(2π)·p[0]))` (which is 0). -/
theorem C5_fdr_selection_witness :
    fdThresholdOpt (fdProbs [0]) 1 1 =
      some (Real.sqrt (-2 * Real.log (Real.sqrt (2 * Real.pi) *
        (fdProbs [0]).getD 0 0))) := by
  have hone : fdProbs [0] = [fdProb 0] := by
    simp [fdProbs, List.insertionSort]
  have hlen : (fdProbs [0]).length = 1 := by rw [hone]; rfl
  have hsqrt : (1 : ℝ) < Real.sqrt (2 * Real.pi) := by
    have h2pi : (1 : ℝ) < 2 * Real.pi := by
      have := Real.pi_gt_d4
      linarith
    have h := Real.sqrt_lt_sqrt (by norm_num : (0 : ℝ) ≤ 1) h2pi
    rwa [Real.sqrt_one] at h
  have hval : (fdProbs [0]).getD 0 0 = 1 / Real.sqrt (2 * Real.pi) := by
    rw [hone]
    show fdProb 0 = 1 / Real.sqrt (2 * Real.pi)
    rw [fdProb]
    norm_num
  have hpos : (0 : ℝ) < Real.sqrt (2 * Real.pi) := lt_trans one_pos hsqrt
  refine (C5_fdr_selection [0] 1 1 (fdProbs [0]) rfl).2 0 (by rw [hlen]; norm_num)
    ?_ (fun j hj _ => by omega)
  rw [hval, hlen]
  have h1 : (1 : ℝ) / 1 * (((0 : ℕ) : ℝ) + 1) / ((1 : ℕ) : ℝ) = 1 := by norm_num
  rw [h1, div_lt_one hpos]
  exact hsqrt

/-- C10 witness: a single requested source whose converted pixel carries
label 0 under a threshold of 1 makes the whole `fit_fixed_positions` call
fail with `ValueError`. -/
theorem C10_valueerror_propagates_witness :
    fitFixedPositions [()] (fun _ => some (0, 0))
      (fun _ => fitToPoint false (some 1) 0 (Except.ok none)
        (Except.ok (none : Option Unit))) (fun _ => false) =
      Except.error PyExc.valueError := by
  have h1 := (C10_valueerror_propagates (S := Unit) (D := Unit)).1 1
    (Except.ok none) (Except.ok none)
  have h2 := ((C10_valueerror_propagates (S := Unit) (D := Unit)).2 () []
    (fun _ => some (0, 0))
    (fun _ => fitToPoint false (some 1) 0 (Except.ok none) (Except.ok none))
    (fun _ => false) (0, 0) rfl).1 h1
  exact h2

end TKP
